import Mathlib

/-!
Verification of the mubsub channel (lib/channel.js): a publish/subscribe
channel over a capped, append-only mongo collection read through a tailable
cursor. The definitions below are a shallow embedding of the functions of
Channel.prototype; the theorems settle the spec's claims about them.
-/

namespace Mubsub

/-- A record in the capped collection (the log). The dummy flag is true only
for the sentinel record inserted by the latest-pointer resolution when the
log is empty; records inserted by publish carry an event name and an args
array whose first element is the event name. Payload values are modelled as
strings; the store-assigned id is a Nat, monotonically increasing in
insertion order. -/
structure Doc where
  id : Nat
  event : Option String
  args : List String
  dummy : Bool
deriving Repr, DecidableEq

/-- The log collection: committed records in commit (natural) order, plus the
next store-assigned id. -/
structure LogState where
  docs : List Doc
  nextId : Nat
deriving Repr, DecidableEq

/-- Errors surfaced on the channel error sink: the broken-cursor error made in
listen, or a store-level failure (insert, find, collection resolution),
identified by a code. -/
inductive Err where
  | brokenCursor
  | store (code : Nat)
deriving Repr, DecidableEq

/-- Observable emissions of the channel relevant to the claims: a data event
emitted as emit.apply(self, doc.args) (args[0] is the event name, the rest is
the payload), the document notification carrying a record, and an error
event. -/
inductive Emit where
  | data (args : List String)
  | document (d : Doc)
  | error (e : Err)
deriving Repr, DecidableEq

/-- Channel state: the closed flag set by close(), the owning connection's
destroyed flag, listening (whether the collection has been resolved and the
ready event fired), the subscriber listeners in registration order (callback
handles as Nat), and the pending publishes queued by ready() as one-shot
listeners of the ready event. The source keeps both kinds of listener in the
one EventEmitter table; here the table is split into the subscriber part and
the internal once-ready part. -/
structure ChannelState where
  closed : Bool
  destroyed : Bool
  listening : Bool
  subs : List (String × Nat)
  readyOnce : List (String × List String)
deriving Repr, DecidableEq

/-- Channel.prototype.close: sets closed = true and returns the channel. -/
def close (c : ChannelState) : ChannelState := { c with closed := true }

/-- The record publish(event, ...) inserts: args is the full arguments list of
publish, so args[0] is the event name. -/
def mkDoc (n : Nat) (event : String) (rest : List String) : Doc :=
  { id := n, event := some event, args := event :: rest, dummy := false }

/-- collection.insert of a publish record: appended at the tail of the log. -/
def insertPub (l : LogState) (event : String) (rest : List String) : LogState :=
  { docs := l.docs ++ [mkDoc l.nextId event rest], nextId := l.nextId + 1 }

/-- The sentinel record, insert of a bare dummy object: no event, no args. -/
def dummyDoc (n : Nat) : Doc := { id := n, event := none, args := [], dummy := true }

/-- collection.insert of the sentinel record. -/
def insertDummy (l : LogState) : LogState :=
  { docs := l.docs ++ [dummyDoc l.nextId], nextId := l.nextId + 1 }

/-- JS truthiness of doc.event: an absent field or the empty string is falsy. -/
def truthyEvent (d : Doc) : Bool :=
  match d.event with
  | none => false
  | some e => !(e == "")

/-- The dispatch guard of listen: doc.event is truthy and equals doc.args[0]. -/
def dispatchCond (d : Doc) : Bool :=
  truthyEvent d && (d.args.head? == d.event)

/-- The in-place mutation doc.args[0] = wildcard name performed by the
dispatch: the record with its first arg overwritten. -/
def rewriteDoc (d : Doc) : Doc := { d with args := "message" :: d.args.tail }

/-- Dispatch of one delivered record (the body of the tail callback for a
present doc): when the guard holds, emit the args under the raw event name,
overwrite args[0] with the wildcard name and emit again; in every case
finally emit the document notification carrying the doc object, mutated when
the rewrite happened. -/
def dispatchDoc (d : Doc) : List Emit :=
  if dispatchCond d then
    [Emit.data d.args, Emit.data (rewriteDoc d).args, Emit.document (rewriteDoc d)]
  else
    [Emit.document d]

/-- The document notifications among a list of emissions. -/
def documentsOf (es : List Emit) : List Doc :=
  es.filterMap fun e =>
    match e with
    | Emit.document d => some d
    | _ => none

/-- The data emissions (full args arrays) among a list of emissions. -/
def dataEmits (es : List Emit) : List (List String) :=
  es.filterMap fun e =>
    match e with
    | Emit.data a => some a
    | _ => none

/-- Channel.prototype.handle: the wrapper around store callbacks. Returns the
emissions and whether the wrapped callback runs. On a closed channel or a
destroyed connection nothing happens at all; otherwise an error is emitted on
the channel, and with the exit flag set an error also prevents the wrapped
callback from running. -/
def handleRun (c : ChannelState) (exitFlag : Bool) (err : Option Err) :
    List Emit × Bool :=
  if c.closed || c.destroyed then ([], false)
  else
    match err with
    | some e => ([Emit.error e], !exitFlag)
    | none => ([], true)

/-- The insert callback inside Channel.prototype.publish: emits error on an
insert failure. It is a bare closure, not handle-wrapped: it does not consult
the closed flag of the channel. -/
def publishInsertCb (c : ChannelState) (err : Option Err) : List Emit :=
  match err with
  | some e => [Emit.error e]
  | none => []

/-- EventEmitter invocation for one event name: the callbacks registered under
that name, in registration order. -/
def notify (subs : List (String × Nat)) (name : String) : List Nat :=
  (subs.filter fun p => p.1 == name).map fun p => p.2

/-- Channel.prototype.subscribe: registers the callback under the event name,
defaulting to the wildcard name when the event is omitted. -/
def subscribe (c : ChannelState) (event : Option String) (cb : Nat) : ChannelState :=
  { c with subs := c.subs ++ [(event.getD "message", cb)] }

/-- Channel.prototype.unsubscribe: with no event, removeAllListeners removes
every listener — the internal once-ready queue lives in the same emitter
table, so it is cleared too; with an event, only that name's listeners are
removed (the once-ready queue only if that name is the ready event's). -/
def unsubscribe (c : ChannelState) (event : Option String) : ChannelState :=
  match event with
  | none => { c with subs := [], readyOnce := [] }
  | some e =>
      { c with
        subs := c.subs.filter fun p => !(p.1 == e),
        readyOnce := if e == "ready" then [] else c.readyOnce }

/-- Channel.prototype.publish through Channel.prototype.ready: when the
collection is resolved (this.listening set) the insert runs at once,
otherwise the publish is queued as a one-shot listener of the ready event.
Returns the channel, the log and the emissions (none on the success path).
The closed flag is not consulted anywhere on this path. -/
def publishCall (c : ChannelState) (l : LogState) (event : String)
    (rest : List String) : ChannelState × LogState × List Emit :=
  if c.listening then
    (c, insertPub l event rest, [])
  else
    ({ c with readyOnce := c.readyOnce ++ [(event, rest)] }, l, [])

/-- Completion of Channel.prototype.listen: the resolver callback is wrapped
in handle with the exit flag, so on a closed channel or destroyed connection
nothing happens; otherwise the collection is recorded as listening and the
ready event fires, running each queued publish in order. -/
def listenReady (c : ChannelState) (l : LogState) : ChannelState × LogState :=
  if c.closed || c.destroyed then (c, l)
  else
    ({ c with listening := true, readyOnce := [] },
     c.readyOnce.foldl (fun acc p => insertPub acc p.1 p.2) l)

/-- One pull of the tailable cursor over a log snapshot: the first record in
natural order with id strictly greater than the resume pointer (the cursor is
opened with a filter id greater than latest and natural sort). -/
def pullNext (docs : List Doc) (latest : Nat) : Option Doc :=
  docs.find? fun d => decide (latest < d.id)

/-- The tail loop over a fixed log snapshot: pull one record, move the resume
pointer to the delivered record, and pull again only after the dispatch of
the current record; fuel bounds the recursion. -/
def runTail : Nat → List Doc → Nat → List Doc
  | 0, _, _ => []
  | fuel + 1, docs, latest =>
    match pullNext docs latest with
    | none => []
    | some d => d :: runTail fuel docs d.id

/-- Channel.prototype.latest on the success path: with a resume pointer, find
the record with that id (natural order reversed, limit 1); with none, take
the newest record; when nothing is found, insert the sentinel and return it. -/
def findLatest (l : LogState) (resume : Option Nat) : Option Doc :=
  match resume with
  | some rid => (l.docs.filter fun d => d.id == rid).getLast?
  | none => l.docs.getLast?

/-- The latest-pointer resolution: the resolved record and the possibly
seeded log. -/
def latestResolve (l : LogState) (resume : Option Nat) : LogState × Doc :=
  match findLatest l resume with
  | some d => (l, d)
  | none => (insertDummy l, dummyDoc l.nextId)

/-- The records created by a sequence of publishes whose first gets id n. -/
def pubDocsFrom : Nat → List (String × List String) → List Doc
  | _, [] => []
  | n, p :: ps => mkDoc n p.1 p.2 :: pubDocsFrom (n + 1) ps

/-- The number of sentinel records in the log. -/
def countDummy (docs : List Doc) : Nat := (docs.filter fun d => d.dummy).length

/-- The log of a freshly created channel on an empty log after a sequence of
publishes: creation runs the latest-pointer resolution (which seeds the
sentinel), then the publishes commit in order. -/
def freshLog (pubs : List (String × List String)) : LogState :=
  pubs.foldl (fun acc p => insertPub acc p.1 p.2)
    (latestResolve { docs := [], nextId := 0 } none).1

/-- The record resolved by the latest-pointer resolution on the empty log: the
seeded sentinel, from which the tailing cursor is opened. -/
def freshSentinel : Doc := (latestResolve { docs := [], nextId := 0 } none).2

/-- The records the tail loop delivers on that freshly created channel: the
cursor is opened strictly after the resolved sentinel's id. -/
def freshDelivered (pubs : List (String × List String)) : List Doc :=
  runTail (freshLog pubs).docs.length (freshLog pubs).docs freshSentinel.id

/-- What the tail loop does after the current step: schedule the next pull
with an updated resume pointer, restart create().listen(resume), or stop
pulling on this cursor. -/
inductive NextAction where
  | pullAgain (latest : Nat)
  | restartListen (resume : Nat)
  | stop
deriving Repr, DecidableEq

/-- The result of one tail-loop step: the emissions, each with its delay in
milliseconds, and the follow-up action. -/
structure StepResult where
  emits : List (Nat × Emit)
  next : NextAction
deriving Repr, DecidableEq

/-- The setTimeout delay before the broken-cursor error, in milliseconds. -/
def graceDelay : Nat := 1000

/-- The nextObject callback of the tail loop (handle-wrapped without the exit
flag): nothing once closed or destroyed; a pull error is emitted at once;
with no record, the broken-cursor error is emitted after the grace delay and,
when the recreate option is set, create().listen restarts with the current
resume pointer, else no further pull is scheduled; with a record, the resume
pointer moves to it, it is dispatched, and the next pull is scheduled. -/
def nextHandler (c : ChannelState) (recreate : Bool) (latest : Nat)
    (err : Option Err) (doc : Option Doc) : StepResult :=
  if c.closed || c.destroyed then { emits := [], next := NextAction.stop }
  else
    let errEmits : List (Nat × Emit) :=
      match err with
      | some e => [(0, Emit.error e)]
      | none => []
    match doc with
    | none =>
        { emits := errEmits ++ [(graceDelay, Emit.error Err.brokenCursor)],
          next := if recreate then NextAction.restartListen latest
                  else NextAction.stop }
    | some d =>
        { emits := errEmits ++ (dispatchDoc d).map (fun e => (0, e)),
          next := NextAction.pullAgain d.id }

/-- Driving the tail loop over a script of pull results: the records
delivered before the loop stops scheduling pulls on this cursor. -/
def runSteps (c : ChannelState) (recreate : Bool) :
    Nat → List (Option Err × Option Doc) → List Doc
  | _, [] => []
  | latest, pr :: rest =>
    match (nextHandler c recreate latest pr.1 pr.2).next with
    | NextAction.pullAgain l2 => pr.2.toList ++ runSteps c recreate l2 rest
    | _ => []

/-- A closed channel whose collection is resolved, used as concrete input. -/
def closedCh : ChannelState :=
  { closed := true, destroyed := false, listening := true,
    subs := [], readyOnce := [] }

/-- An open channel with subscribers under three names, concrete input. -/
def sampleCh : ChannelState :=
  { closed := false, destroyed := false, listening := true,
    subs := [("a", 0), ("message", 1), ("b", 2)], readyOnce := [] }

/-- A fresh, not yet listening channel, concrete input. -/
def freshCh : ChannelState :=
  { closed := false, destroyed := false, listening := false,
    subs := [], readyOnce := [] }

/-- A delivered record satisfying the dispatch guard, concrete input. -/
def exDoc : Doc := { id := 1, event := some "a", args := ["a", "x"], dummy := false }

/-- A record whose args[0] differs from its event field, concrete input. -/
def mismatchDoc : Doc :=
  { id := 2, event := some "b", args := ["c"], dummy := false }

/- ------------------------------------------------------------------ -/
/- Theorems                                                            -/
/- ------------------------------------------------------------------ -/

theorem documentsOf_dispatchDoc (d : Doc) :
    documentsOf (dispatchDoc d) = [if dispatchCond d then rewriteDoc d else d] := by
  by_cases h : dispatchCond d <;> simp [dispatchDoc, documentsOf, h]

/-- Claim C2 (as amended): the document notification carries the doc object as
mutated by the dispatch: when the data emissions occurred its args array has
the wildcard name at position 0, otherwise the record is carried unchanged. -/
theorem c2_document_carries_rewritten (d : Doc) :
    documentsOf (dispatchDoc d) = [if dispatchCond d then rewriteDoc d else d] ∧
    (rewriteDoc d).args.head? = some "message" := by
  exact ⟨documentsOf_dispatchDoc d, rfl⟩

/-- Claim C2, counterexample: for a delivered record with event a and args
[a, x], the document notification carries the record with args [message, x];
its args[0] no longer equals the original event name. -/
theorem c2_document_counterexample :
    documentsOf (dispatchDoc exDoc) =
      [{ id := 1, event := some "a", args := ["message", "x"], dummy := false }] ∧
    exDoc.event = some "a" ∧
    ¬ ((some "message" : Option String) = some "a") := by
  refine ⟨rfl, rfl, by decide⟩

/-- Claim C3 (as amended): once closed, every failure routed through the
handle wrapper (the tail and resolve paths) is swallowed: no emission and no
callback; but the insert callback of publish does not consult the closed
flag, so an insert failure completing after close still emits the error. -/
theorem c3_closed_swallow_scope (c : ChannelState) (e : Err)
    (h : c.closed = true) :
    (∀ x : Bool, handleRun c x (some e) = ([], false)) ∧
    publishInsertCb c (some e) = [Emit.error e] := by
  constructor
  · intro x
    simp [handleRun, h]
  · rfl

theorem c3_closed_swallow_scope_witness :
    closedCh.closed = true ∧
    ((∀ x : Bool, handleRun closedCh x (some (Err.store 7)) = ([], false)) ∧
     publishInsertCb closedCh (some (Err.store 7)) = [Emit.error (Err.store 7)]) :=
  ⟨rfl, c3_closed_swallow_scope closedCh (Err.store 7) rfl⟩

/-- Claim C3, counterexample: on a closed channel an insert failure arriving
through publish's insert callback still emits an error event. -/
theorem c3_closed_error_counterexample :
    closedCh.closed = true ∧
    publishInsertCb closedCh (some (Err.store 3)) = [Emit.error (Err.store 3)] ∧
    publishInsertCb closedCh (some (Err.store 3)) ≠ ([] : List Emit) := by
  refine ⟨rfl, rfl, by decide⟩

/-- Claim C4 (as amended): every record inserted by publish satisfies
args[0] == event; when such a record with a nonempty (truthy) event name is
delivered, dispatch emits the raw args first and then the same args with the
first element overwritten by the wildcard name; a delivered record whose
args[0] differs from its event field produces no data emission. -/
theorem c4_publish_invariant_dispatch (e : String) (rest : List String)
    (n : Nat) (d : Doc) (he : ¬ e = "") (hd : ¬ d.args.head? = d.event) :
    (mkDoc n e rest).args.head? = (mkDoc n e rest).event ∧
    dataEmits (dispatchDoc (mkDoc n e rest)) = [e :: rest, "message" :: rest] ∧
    dataEmits (dispatchDoc d) = [] := by
  refine ⟨rfl, ?_, ?_⟩
  · have hc : dispatchCond (mkDoc n e rest) = true := by
      simp [dispatchCond, truthyEvent, mkDoc, he]
    simp only [dispatchDoc, hc, if_true]
    simp [dataEmits, rewriteDoc, mkDoc]
  · have hc : dispatchCond d = false := by
      simp [dispatchCond, truthyEvent]
      intro _
      simpa using hd
    simp [dispatchDoc, hc, dataEmits]

theorem c4_publish_invariant_dispatch_witness :
    (¬ "a" = "") ∧ (¬ mismatchDoc.args.head? = mismatchDoc.event) ∧
    ((mkDoc 1 "a" ["x"]).args.head? = (mkDoc 1 "a" ["x"]).event ∧
     dataEmits (dispatchDoc (mkDoc 1 "a" ["x"])) = [["a", "x"], ["message", "x"]] ∧
     dataEmits (dispatchDoc mismatchDoc) = []) :=
  ⟨by decide, by decide,
   c4_publish_invariant_dispatch "a" ["x"] 1 mismatchDoc (by decide) (by decide)⟩

/-- Claim C4, counterexample: publish with the empty event name inserts a
record satisfying args[0] == event, yet its delivery produces no data
emission, because the dispatch guard requires a truthy event. -/
theorem c4_empty_event_counterexample :
    (mkDoc 1 "" []).args.head? = (mkDoc 1 "" []).event ∧
    dataEmits (dispatchDoc (mkDoc 1 "" [])) = ([] : List (List String)) := by
  refine ⟨rfl, by decide⟩

/-- Claim C7: close sets the closed flag, is idempotent, and once closed both
the handle wrapper and the tail-loop pull callback are no-ops: no emission,
no callback run, no further action, for every delivered record and error. -/
theorem c7_close_idempotent_noop (c : ChannelState) :
    (close c).closed = true ∧
    close (close c) = close c ∧
    (∀ (x : Bool) (err : Option Err), handleRun (close c) x err = ([], false)) ∧
    (∀ (recreate : Bool) (latest : Nat) (err : Option Err) (doc : Option Doc),
      nextHandler (close c) recreate latest err doc =
        { emits := [], next := NextAction.stop }) := by
  refine ⟨rfl, rfl, ?_, ?_⟩
  · intro x err
    simp [handleRun, close]
  · intro recreate latest err doc
    simp [nextHandler, close]

/-- Claim C10: publish on a closed channel with a resolved collection still
inserts the record at the tail of the log: the closed flag places no check on
the publish path, whose log and emission effects are identical to those of
the unclosed channel. -/
theorem c10_publish_after_close (c : ChannelState) (l : LogState) (e : String)
    (rest : List String) (h : c.listening = true) :
    (publishCall (close c) l e rest).2.1 =
      { docs := l.docs ++ [mkDoc l.nextId e rest], nextId := l.nextId + 1 } ∧
    (close c).closed = true ∧
    (publishCall (close c) l e rest).2 = (publishCall c l e rest).2 := by
  refine ⟨?_, rfl, ?_⟩ <;> simp [publishCall, close, h, insertPub]

theorem c10_publish_after_close_witness :
    closedCh.listening = true ∧
    ((publishCall (close closedCh) { docs := [], nextId := 0 } "a" ["x"]).2.1 =
      { docs := [mkDoc 0 "a" ["x"]], nextId := 1 } ∧
     (close closedCh).closed = true ∧
     (publishCall (close closedCh) { docs := [], nextId := 0 } "a" ["x"]).2 =
       (publishCall closedCh { docs := [], nextId := 0 } "a" ["x"]).2) :=
  ⟨rfl, by
    have h := c10_publish_after_close closedCh { docs := [], nextId := 0 } "a" ["x"] rfl
    simpa using h⟩

theorem notify_filter_self (subs : List (String × Nat)) (e : String) :
    notify (subs.filter fun p => !(p.1 == e)) e = [] := by
  unfold notify
  rw [List.filter_filter]
  have hnil : (subs.filter fun a => (a.1 == e) && !(a.1 == e)) = [] := by
    rw [List.filter_eq_nil_iff]
    intro a _
    cases hae : (a.1 == e) <;> simp [hae]
  rw [hnil]
  rfl

theorem notify_filter_other (subs : List (String × Nat)) (e n : String)
    (h : ¬ n = e) :
    notify (subs.filter fun p => !(p.1 == e)) n = notify subs n := by
  unfold notify
  rw [List.filter_filter]
  have hcong : (subs.filter fun a => (a.1 == n) && !(a.1 == e)) =
      subs.filter fun p => p.1 == n := by
    apply List.filter_congr
    intro a _
    cases han : (a.1 == n) with
    | false => simp [han]
    | true =>
      have hxn : a.1 = n := by simpa using han
      have hxe : (a.1 == e) = false := by
        simp [hxn]
        exact h
      simp [han, hxe]
  rw [hcong]

/-- Claim C8: unsubscribing a specific event name empties only that name's
callback list; the wildcard list and every other name's list are unchanged;
unsubscribing with no event removes every subscriber callback, so no name
notifies anybody. -/
theorem c8_unsubscribe_scope (c : ChannelState) (e other : String)
    (h1 : ¬ e = "message") (h2 : ¬ other = e) :
    notify (unsubscribe c (some e)).subs e = [] ∧
    notify (unsubscribe c (some e)).subs "message" = notify c.subs "message" ∧
    notify (unsubscribe c (some e)).subs other = notify c.subs other ∧
    (unsubscribe c none).subs = [] ∧
    (∀ n : String, notify (unsubscribe c none).subs n = []) := by
  refine ⟨?_, ?_, ?_, rfl, fun n => rfl⟩
  · simpa [unsubscribe] using notify_filter_self c.subs e
  · simpa [unsubscribe] using
      notify_filter_other c.subs e "message" (fun hx => h1 hx.symm)
  · simpa [unsubscribe] using notify_filter_other c.subs e other h2

theorem c8_unsubscribe_scope_witness :
    (¬ "a" = "message") ∧ (¬ "b" = "a") ∧
    (notify (unsubscribe sampleCh (some "a")).subs "a" = [] ∧
     notify (unsubscribe sampleCh (some "a")).subs "message" =
       notify sampleCh.subs "message" ∧
     notify (unsubscribe sampleCh (some "a")).subs "b" = notify sampleCh.subs "b" ∧
     (unsubscribe sampleCh none).subs = [] ∧
     (∀ n : String, notify (unsubscribe sampleCh none).subs n = [])) :=
  ⟨by decide, by decide,
   c8_unsubscribe_scope sampleCh "a" "b" (by decide) (by decide)⟩

/-- Claim C9: on a channel whose collection is not yet resolved, a publish is
queued on the one-shot ready listener; unsubscribe with no event clears every
listener including that queue, so when the ready event later fires the queued
record is never inserted — the log is unchanged — and no error is emitted. -/
theorem c9_unsubscribe_drops_queued_publish (c : ChannelState) (l : LogState)
    (e : String) (rest : List String) (h : c.listening = false) :
    (unsubscribe (publishCall c l e rest).1 none).subs = [] ∧
    (unsubscribe (publishCall c l e rest).1 none).readyOnce = [] ∧
    (listenReady (unsubscribe (publishCall c l e rest).1 none)
        (publishCall c l e rest).2.1).2 = l ∧
    (publishCall c l e rest).2.2= [] := by
  refine ⟨rfl, ?_, ?_, ?_⟩
  · simp [publishCall, h, unsubscribe]
  · have hp : publishCall c l e rest =
        ({ c with readyOnce := c.readyOnce ++ [(e, rest)] }, l, []) := by
      simp [publishCall, h]
    rw [hp]
    unfold listenReady
    split
    · rfl
    · rfl
  · simp [publishCall, h]

theorem c9_unsubscribe_drops_queued_publish_witness :
    freshCh.listening = false ∧
    ((unsubscribe (publishCall freshCh { docs := [], nextId := 0 } "a" []).1
        none).subs = [] ∧
     (unsubscribe (publishCall freshCh { docs := [], nextId := 0 } "a" []).1
        none).readyOnce = [] ∧
     (listenReady
        (unsubscribe (publishCall freshCh { docs := [], nextId := 0 } "a" []).1
          none)
        (publishCall freshCh { docs := [], nextId := 0 } "a" []).2.1).2 =
       { docs := [], nextId := 0 } ∧
     (publishCall freshCh { docs := [], nextId := 0 } "a" []).2.2 = []) :=
  ⟨rfl, c9_unsubscribe_drops_queued_publish freshCh { docs := [], nextId := 0 }
    "a" [] rfl⟩

/-- Claim C5: on a live channel, a pull yielding no record and no error makes
the tail loop emit the broken-cursor error after the 1000 ms grace delay and
then either restart create().listen with the current resume pointer (the last
delivered record sets that pointer) when recreate is on, or stop scheduling
pulls for good when recreate is off, in which case no later pull result
delivers anything on this cursor. -/
theorem c5_broken_cursor (c : ChannelState) (recreate : Bool) (latest : Nat)
    (h1 : c.closed = false) (h2 : c.destroyed = false) :
    nextHandler c recreate latest none none =
      { emits := [(graceDelay, Emit.error Err.brokenCursor)],
        next := if recreate then NextAction.restartListen latest
                else NextAction.stop } ∧
    graceDelay = 1000 ∧
    (∀ d : Doc,
      (nextHandler c recreate latest none (some d)).next = NextAction.pullAgain d.id) ∧
    (∀ rest : List (Option Err × Option Doc),
      runSteps c false latest ((none, none) :: rest) = []) := by
  refine ⟨?_, rfl, ?_, ?_⟩
  · simp [nextHandler, h1, h2]
  · intro d
    simp [nextHandler, h1, h2]
  · intro rest
    simp [runSteps, nextHandler, h1, h2]

theorem c5_broken_cursor_witness :
    sampleCh.closed = false ∧ sampleCh.destroyed = false ∧
    (nextHandler sampleCh true 5 none none =
      { emits := [(graceDelay, Emit.error Err.brokenCursor)],
        next := NextAction.restartListen 5 } ∧
     graceDelay = 1000 ∧
     (∀ d : Doc,
       (nextHandler sampleCh true 5 none (some d)).next = NextAction.pullAgain d.id) ∧
     (∀ rest : List (Option Err × Option Doc),
       runSteps sampleCh false 5 ((none, none) :: rest) = [])) :=
  ⟨rfl, rfl, by
    have h := c5_broken_cursor sampleCh true 5 rfl rfl
    simpa using h⟩

theorem runTail_skip (fuel : Nat) (d : Doc) (ds : List Doc) :
    ∀ latest : Nat, d.id ≤ latest →
      runTail fuel (d :: ds) latest = runTail fuel ds latest := by
  induction fuel with
  | zero => intro latest _; rfl
  | succ m ih =>
    intro latest h
    have hp : pullNext (d :: ds) latest = pullNext ds latest := by
      unfold pullNext
      rw [List.find?_cons_of_neg]
      simp only [decide_eq_true_eq]
      omega
    simp only [runTail, hp]
    cases hq : pullNext ds latest with
    | none => rfl
    | some x =>
      have hx : latest < x.id := by
        have h1 := List.find?_some hq
        simpa using h1
      have hdx : d.id ≤ x.id := Nat.le_trans h (Nat.le_of_lt hx)
      show x :: runTail m (d :: ds) x.id = x :: runTail m ds x.id
      rw [ih x.id hdx]

theorem runTail_sorted :
    ∀ ds : List Doc, (ds.Pairwise fun a b => a.id < b.id) →
      ∀ latest fuel : Nat, ds.length ≤ fuel →
        runTail fuel ds latest = ds.filter fun d => decide (latest < d.id) := by
  intro ds
  induction ds with
  | nil =>
    intro _ latest fuel _
    cases fuel with
    | zero => rfl
    | succ m => simp [runTail, pullNext]
  | cons d ds ih =>
    intro hs latest fuel hlen
    have hpair := List.pairwise_cons.mp hs
    have hd := hpair.1
    have hp := hpair.2
    cases fuel with
    | zero => exact absurd hlen (by simp)
    | succ m =>
      by_cases hlt : latest < d.id
      · have hp1 : pullNext (d :: ds) latest = some d := by
          unfold pullNext
          rw [List.find?_cons_of_pos]
          simp [hlt]
        simp only [runTail, hp1]
        rw [runTail_skip m d ds d.id (Nat.le_refl d.id)]
        rw [ih hp d.id m (by simpa using hlen)]
        have h1 : (ds.filter fun x => decide (d.id < x.id)) = ds := by
          rw [List.filter_eq_self]
          intro x hx
          simp [hd x hx]
        have h2 : (ds.filter fun x => decide (latest < x.id)) = ds := by
          rw [List.filter_eq_self]
          intro x hx
          simp [Nat.lt_trans hlt (hd x hx)]
        rw [h1, List.filter_cons_of_pos (by simp [hlt]), h2]
      · have hle : d.id ≤ latest := Nat.not_lt.mp hlt
        rw [runTail_skip (m + 1) d ds latest hle]
        rw [ih hp latest (m + 1) (by simp at hlen ⊢; omega)]
        rw [List.filter_cons_of_neg (by simp [hlt])]

theorem publishFold :
    ∀ (pubs : List (String × List String)) (ds : List Doc) (n : Nat),
      pubs.foldl (fun acc p => insertPub acc p.1 p.2) { docs := ds, nextId := n } =
        { docs := ds ++ pubDocsFrom n pubs, nextId := n + pubs.length } := by
  intro pubs
  induction pubs with
  | nil => intro ds n; simp [pubDocsFrom]
  | cons p ps ih =>
    intro ds n
    have h1 : insertPub { docs := ds, nextId := n } p.1 p.2 =
        { docs := ds ++ [mkDoc n p.1 p.2], nextId := n + 1 } := rfl
    simp only [List.foldl_cons, h1, ih, pubDocsFrom]
    rw [LogState.mk.injEq]
    constructor
    · rw [List.append_assoc]
      rfl
    · simp
      omega

theorem pubDocsFrom_id :
    ∀ (pubs : List (String × List String)) (n : Nat) (d : Doc),
      d ∈ pubDocsFrom n pubs → n ≤ d.id := by
  intro pubs
  induction pubs with
  | nil =>
    intro n d hd
    simp [pubDocsFrom] at hd
  | cons p ps ih =>
    intro n d hd
    simp only [pubDocsFrom, List.mem_cons] at hd
    rcases hd with h | h
    · rw [h]
      exact Nat.le_refl n
    · exact Nat.le_trans (Nat.le_succ n) (ih (n + 1) d h)

theorem pubDocsFrom_pairwise :
    ∀ (pubs : List (String × List String)) (n : Nat),
      (pubDocsFrom n pubs).Pairwise fun a b => a.id < b.id := by
  intro pubs
  induction pubs with
  | nil => intro n; simp [pubDocsFrom]
  | cons p ps ih =>
    intro n
    simp only [pubDocsFrom]
    rw [List.pairwise_cons]
    constructor
    · intro b hb
      have hid := pubDocsFrom_id ps (n + 1) b hb
      show (mkDoc n p.1 p.2).id < b.id
      simp only [mkDoc]
      omega
    · exact ih (n + 1)

theorem pubDocsFrom_not_dummy :
    ∀ (pubs : List (String × List String)) (n : Nat) (d : Doc),
      d ∈ pubDocsFrom n pubs → d.dummy = false := by
  intro pubs
  induction pubs with
  | nil =>
    intro n d hd
    simp [pubDocsFrom] at hd
  | cons p ps ih =>
    intro n d hd
    simp only [pubDocsFrom, List.mem_cons] at hd
    rcases hd with h | h
    · rw [h]
      rfl
    · exact ih (n + 1) d h

theorem pubDocsFrom_decode :
    ∀ (pubs : List (String × List String)) (n : Nat),
      (pubDocsFrom n pubs).map (fun d => (d.event, d.args)) =
        pubs.map fun p => ((some p.1 : Option String), p.1 :: p.2) := by
  intro pubs
  induction pubs with
  | nil => intro n; rfl
  | cons p ps ih =>
    intro n
    simp only [pubDocsFrom, List.map_cons, ih]
    rfl

theorem freshLog_eq (pubs : List (String × List String)) :
    freshLog pubs =
      { docs := dummyDoc 0 :: pubDocsFrom 1 pubs, nextId := 1 + pubs.length } := by
  unfold freshLog
  have h0 : (latestResolve { docs := [], nextId := 0 } none).1 =
      { docs := [dummyDoc 0], nextId := 1 } := rfl
  rw [h0, publishFold pubs [dummyDoc 0] 1]
  rfl

theorem freshDelivered_eq (pubs : List (String × List String)) :
    freshDelivered pubs = pubDocsFrom 1 pubs := by
  unfold freshDelivered
  rw [freshLog_eq]
  have hsorted : (dummyDoc 0 :: pubDocsFrom 1 pubs).Pairwise
      fun a b => a.id < b.id := by
    rw [List.pairwise_cons]
    refine ⟨?_, pubDocsFrom_pairwise pubs 1⟩
    intro b hb
    have hid := pubDocsFrom_id pubs 1 b hb
    show (dummyDoc 0).id < b.id
    simp only [dummyDoc]
    omega
  rw [runTail_sorted _ hsorted freshSentinel.id _ (Nat.le_refl _)]
  have hsent : freshSentinel.id = 0 := rfl
  rw [hsent, List.filter_cons_of_neg (by simp [dummyDoc])]
  rw [List.filter_eq_self]
  intro x hx
  have hid := pubDocsFrom_id pubs 1 x hx
  simp only [decide_eq_true_eq]
  omega

theorem documentsOf_flatMap (ds : List Doc) :
    documentsOf (ds.flatMap dispatchDoc) =
      ds.map fun d => if dispatchCond d then rewriteDoc d else d := by
  induction ds with
  | nil => rfl
  | cons d t ih =>
    rw [List.flatMap_cons, List.map_cons]
    unfold documentsOf at ih ⊢
    rw [List.filterMap_append, ih]
    have hdoc := documentsOf_dispatchDoc d
    unfold documentsOf at hdoc
    rw [hdoc]
    rfl

/-- Claim C1: on a channel freshly created over an empty log, for every
sequence of publishes the tail loop delivers exactly the records the store
committed, in commit order — the decoded (event, args) list equals the
published list: none reordered, none skipped, none repeated. -/
theorem c1_delivery_order (pubs : List (String × List String)) :
    (freshDelivered pubs).map (fun d => (d.event, d.args)) =
      pubs.map fun p => ((some p.1 : Option String), p.1 :: p.2) := by
  rw [freshDelivered_eq]
  exact pubDocsFrom_decode pubs 1

/-- Claim C6: a freshly created channel over an empty log seeds exactly one
sentinel record, and the sentinel is never delivered: every record the tail
loop delivers is a non-dummy publish record (the cursor opens strictly after
the resolved sentinel's id), and no document notification of the run carries
a dummy record. -/
theorem c6_sentinel_once (pubs : List (String × List String)) :
    countDummy (freshLog pubs).docs = 1 ∧
    ((freshDelivered pubs).all fun d => !d.dummy) = true ∧
    ((documentsOf ((freshDelivered pubs).flatMap dispatchDoc)).all
      fun d => !d.dummy) = true := by
  refine ⟨?_, ?_, ?_⟩
  · rw [freshLog_eq]
    unfold countDummy
    rw [List.filter_cons_of_pos (by rfl)]
    have hnone : (pubDocsFrom 1 pubs).filter (fun d => d.dummy) = [] := by
      rw [List.filter_eq_nil_iff]
      intro a ha
      simp [pubDocsFrom_not_dummy pubs 1 a ha]
    rw [hnone]
    rfl
  · rw [freshDelivered_eq, List.all_eq_true]
    intro x hx
    simp [pubDocsFrom_not_dummy pubs 1 x hx]
  · rw [freshDelivered_eq, documentsOf_flatMap, List.all_eq_true]
    intro x hx
    rcases List.mem_map.mp hx with ⟨d, hd, hxd⟩
    have hdum := pubDocsFrom_not_dummy pubs 1 d hd
    rw [← hxd]
    by_cases hc : dispatchCond d <;> simp [hc, rewriteDoc, hdum]

end Mubsub
